import Mathlib

/-!
Verification development for the go-duckdb-ingester metrics pipeline.

The Go sources are shallowly embedded: instants are integer milliseconds
since the Unix epoch (the resolution the pipeline itself stores via
`UnixMilli`), durations are integer milliseconds, fallible calls return
`Except`/`Option`, and the effects of the collection driver are recorded
as an explicit event list.  `float64` sample values are carried opaquely
as `Float`; no arithmetic is ever performed on them, mirroring the Go
code, which only copies them.
-/

/-- Instants: milliseconds since the Unix epoch.  Go's zero `time.Time`
(0001-01-01T00:00:00 UTC) sits at `goZeroTimeMs`. -/
abbrev GoTime := Int

/-- Durations: milliseconds (Go `time.Duration` truncated to ms). -/
abbrev GoDuration := Int

/-- Millisecond offset of Go's zero time relative to the Unix epoch:
-62135596800 seconds separate 0001-01-01T00:00:00Z from 1970-01-01T00:00:00Z. -/
def goZeroTimeMs : Int := -62135596800000

/-- Model of Go's `time.Time.IsZero`: the instant equals the zero time. -/
def isZeroTime (t : GoTime) : Bool := t == goZeroTimeMs

def msPerDay : Int := 86400000

/-- Civil date (year, month, day) of a day count relative to 1970-01-01,
computed with the standard days-to-civil conversion; this is the day
component Go's `Time.Format` renders. -/
def civilFromDays (z0 : Int) : Int × Int × Int :=
  let z := z0 + 719468
  let era := Int.fdiv z 146097
  let doe := z - era * 146097
  let yoe := Int.fdiv (doe - Int.fdiv doe 1460 + Int.fdiv doe 36524 - Int.fdiv doe 146096) 365
  let y := yoe + era * 400
  let doy := doe - (365 * yoe + Int.fdiv yoe 4 - Int.fdiv yoe 100)
  let mp := Int.fdiv (5 * doy + 2) 153
  let d := doy - Int.fdiv (153 * mp + 2) 5 + 1
  let m := mp + (if mp < 10 then 3 else -9)
  (y + (if m ≤ 2 then 1 else 0), m, d)

def pad2 (n : Int) : String :=
  if n < 10 then "0" ++ toString n else toString n

def pad4 (n : Int) : String :=
  if n < 10 then "000" ++ toString n
  else if n < 100 then "00" ++ toString n
  else if n < 1000 then "0" ++ toString n
  else toString n

/-- Civil date of an instant (milliseconds since epoch). -/
def dateParts (t : GoTime) : Int × Int × Int :=
  civilFromDays (Int.fdiv t msPerDay)

/-- Go `Format("2006-01-02")` of an instant. -/
def formatDate (t : GoTime) : String :=
  let p := dateParts t
  pad4 p.1 ++ "-" ++ pad2 p.2.1 ++ "-" ++ pad2 p.2.2

/-- Go `Format("2006")`. -/
def formatYear (t : GoTime) : String := pad4 (dateParts t).1

/-- Go `Format("01")`. -/
def formatMonth (t : GoTime) : String := pad2 (dateParts t).2.1

/-- Go `Format("02")`. -/
def formatDay (t : GoTime) : String := pad2 (dateParts t).2.2

/-- Go `Format("150405")`: hours, minutes, seconds of the instant's day. -/
def formatHMS (t : GoTime) : String :=
  let r := Int.fmod t msPerDay
  let s := Int.fdiv r 1000
  pad2 (Int.fdiv s 3600) ++ pad2 (Int.fmod (Int.fdiv s 60) 60) ++ pad2 (Int.fmod s 60)

/-- Core loop of the batch planner (the range branch of `collectAndStore` in
the Go main package): starting at `bs`, emit windows
`(batchStart, batchEnd)` where `batchEnd = batchStart + bd` clipped to `endT`
(`if batchEnd.After(cfg.EndTime) { batchEnd = cfg.EndTime }`), advancing
`batchStart` by `bd` while `batchStart.Before(cfg.EndTime)`.  The `0 < bd`
conjunct of the guard is purely a termination guard: the Go loop never
terminates when `bd ≤ 0 ∧ bs < endT`, and the driver only reaches the loop
with a positive batch duration. -/
def planLoop (endT bd : Int) (bs : Int) : List (Int × Int) :=
  if _h : bs < endT ∧ 0 < bd then
    (bs, if endT < bs + bd then endT else bs + bd) :: planLoop endT bd (bs + bd)
  else
    []
termination_by (endT - bs).toNat
decreasing_by
  simp_wf
  omega

/-- Batch planner (`collectAndStore`, range branch): a 6-hour batch duration
(`maxBatchSpan`) is first clamped to the total duration
(`if totalDuration < batchDuration { batchDuration = totalDuration }`),
then the window is walked by `planLoop`. -/
def planBatches (startT endT maxBatchSpan : Int) : List (Int × Int) :=
  let totalDuration := endT - startT
  let batchDuration := if totalDuration < maxBatchSpan then totalDuration else maxBatchSpan
  planLoop endT batchDuration startT

/-- The constant `batchDuration := 6 * time.Hour` of the driver, in ms. -/
def batchDurationMs : Int := 21600000

/-- Adjacent batches share an endpoint: the second component of each element
equals the first component of its successor. -/
def Contiguous : List (Int × Int) → Prop
  | [] => True
  | [_] => True
  | a :: b :: rest => a.2 = b.1 ∧ Contiguous (b :: rest)

/-- Character-level model of Go's `fmt.Sprintf` with a single string
argument, exact on the fragment the repository's query templates use: the
only verb occurrences are `%s` (consuming the argument; a second `%s`
renders `%!s(MISSING)`) and the escape `%%`, and a format that never
consumes the argument gets `%!(EXTRA string=...)` appended.  A `%` followed
by any other character is copied through; Go would render a `%!`-error
token there, but no template of the repository (and no theorem below)
reaches that case. -/
def sprintfAux (arg : List Char) : List Char → Bool → List Char
  | [], used => if used then [] else "%!(EXTRA string=".data ++ arg ++ ")".data
  | c :: cs, used =>
    if c = '%' then
      match cs with
      | 's' :: cs2 =>
        if used then "%!s(MISSING)".data ++ sprintfAux arg cs2 used
        else arg ++ sprintfAux arg cs2 true
      | '%' :: cs2 => '%' :: sprintfAux arg cs2 used
      | c2 :: cs2 => '%' :: sprintfAux arg (c2 :: cs2) used
      | [] => '%' :: sprintfAux arg [] used
    else c :: sprintfAux arg cs used
termination_by l _ => l.length
decreasing_by
  all_goals simp
  all_goals omega

/-- Model of `replaceAPIProxyInQuery` (client.go): `fmt.Sprintf(query, apiProxy)`. -/
def replaceAPIProxyInQuery (query apiProxy : String) : String :=
  ⟨sprintfAux apiProxy.data query.data false⟩

/-- Number of positions of `s` at which `pat` occurs as a substring. -/
def countOccurrencesAux (pat : List Char) : List Char → Nat
  | [] => 0
  | c :: cs => (if pat.isPrefixOf (c :: cs) then 1 else 0) + countOccurrencesAux pat cs

def countOccurrences (s pat : String) : Nat := countOccurrencesAux pat.data s.data

/-- Configured metric (pkg/config `MetricConfig`): name, query template,
informational label list. -/
structure MetricConfig where
  name : String
  query : String
  labels : List String
deriving DecidableEq, Repr

/-- Per-query time range (client.go `TimeRange`); `endT` renders Go's `End`,
which is a reserved word in Lean. -/
structure TimeRange where
  start : GoTime
  endT : GoTime
  step : GoDuration
deriving DecidableEq, Repr

/-- Collected sample (client.go `MetricResult`).  Label maps are carried as
association lists; Go map iteration order is irrelevant to every claim. -/
structure MetricResult where
  name : String
  timestamp : GoTime
  value : Float
  labels : List (String × String)

/-- Backend result shapes (prometheus model.Value): the closed union the
type switch in client.go discriminates on. -/
inductive PromValue where
  | vector : List (List (String × String) × GoTime × Float) → PromValue
  | matrix : List (List (String × String) × List (GoTime × Float)) → PromValue
  | scalar : GoTime → Float → PromValue
  | strValue : GoTime → String → PromValue

/-- Go `model.ValueType.String()` of each shape. -/
def PromValue.typeString : PromValue → String
  | .vector _ => "vector"
  | .matrix _ => "matrix"
  | .scalar _ _ => "scalar"
  | .strValue _ _ => "string"

/-- Samples produced from a vector result: one `MetricResult` per element,
carrying the element's full label set (client.go, `case model.ValVector`). -/
def vectorSamples (name : String)
    (v : List (List (String × String) × GoTime × Float)) : List MetricResult :=
  v.map fun s => { name := name, timestamp := s.2.1, value := s.2.2, labels := s.1 }

/-- Samples produced from a matrix result: one `MetricResult` per point of
each stream, carrying the stream's label set (client.go, `case model.ValMatrix`). -/
def matrixSamples (name : String)
    (streams : List (List (String × String) × List (GoTime × Float))) : List MetricResult :=
  streams.flatMap fun stream =>
    stream.2.map fun point =>
      { name := name, timestamp := point.1, value := point.2, labels := stream.1 }

/-- Reply of one backend call: a transport error, or a result value plus
warnings (warnings are printed and otherwise ignored by the Go code). -/
inductive QueryReply where
  | failure : String → QueryReply
  | success : PromValue → List String → QueryReply

/-- Result-shape switch of the instant path (`CollectMetrics`, client.go
lines 96-136): vector and matrix results both produce samples; any other
shape is an unsupported-result-type error. -/
def processInstantResult (name : String) : PromValue → Except String (List MetricResult)
  | .vector v => .ok (vectorSamples name v)
  | .matrix streams => .ok (matrixSamples name streams)
  | v => .error ("unsupported result type for metric " ++ name ++ ": " ++ v.typeString)

/-- Result-shape switch of the range path (`CollectMetricsRange`, client.go
lines 219-242): only matrix results produce samples. -/
def processRangeResult (name : String) : PromValue → Except String (List MetricResult)
  | .matrix streams => .ok (matrixSamples name streams)
  | v => .error ("unsupported result type for range query for metric " ++ name ++ ": " ++ v.typeString)

/-- One per-metric goroutine of `CollectMetrics`: substitute the target into
the query template, issue the instant query, and normalize the result. -/
def runInstantMetric (backend : String → QueryReply) (apiProxy : String)
    (m : MetricConfig) : Except String (List MetricResult) :=
  let query := replaceAPIProxyInQuery m.query apiProxy
  match backend query with
  | .failure e => .error ("error querying Prometheus for metric " ++ m.name ++ ": " ++ e)
  | .success v _warnings => processInstantResult m.name v

/-- One per-metric goroutine of `CollectMetricsRange`. -/
def runRangeMetric (backend : String → TimeRange → QueryReply) (apiProxy : String)
    (timeRange : TimeRange) (m : MetricConfig) : Except String (List MetricResult) :=
  let query := replaceAPIProxyInQuery m.query apiProxy
  match backend query timeRange with
  | .failure e => .error ("error querying Prometheus range for metric " ++ m.name ++ ": " ++ e)
  | .success v _warnings => processRangeResult m.name v

/-- Join-and-aggregate step of `CollectMetrics` (client.go lines 150-175):
after all per-metric goroutines finish, drain every error and every result;
if any error occurred, return it (wrapping all individual errors) and no
samples, otherwise the concatenation of all per-metric samples.  The
channel arrival order is scheduling-dependent in Go; the model uses the
configured metric order, and every property proved below is insensitive to
that order. -/
def collectMetrics (backend : String → QueryReply) (cfgMetrics : List MetricConfig)
    (apiProxy : String) : Except (List String) (List MetricResult) :=
  let outs := cfgMetrics.map (runInstantMetric backend apiProxy)
  let allErrors := outs.filterMap fun o => match o with
    | .error e => some e
    | .ok _ => none
  if allErrors.isEmpty then
    .ok (outs.filterMap fun o => match o with
      | .ok rs => some rs
      | .error _ => none).flatten
  else
    .error allErrors

/-- Join-and-aggregate step of `CollectMetricsRange` (client.go lines 256-281),
identical to the instant one. -/
def collectMetricsRange (backend : String → TimeRange → QueryReply)
    (cfgMetrics : List MetricConfig) (apiProxy : String)
    (timeRange : TimeRange) : Except (List String) (List MetricResult) :=
  let outs := cfgMetrics.map (runRangeMetric backend apiProxy timeRange)
  let allErrors := outs.filterMap fun o => match o with
    | .error e => some e
    | .ok _ => none
  if allErrors.isEmpty then
    .ok (outs.filterMap fun o => match o with
      | .ok rs => some rs
      | .error _ => none).flatten
  else
    .error allErrors

def dropTrailingSlashes (cs : List Char) : List Char :=
  (cs.reverse.dropWhile (· = '/')).reverse

def afterLastSlash (cs : List Char) : List Char :=
  (cs.reverse.takeWhile (· ≠ '/')).reverse

/-- Go `filepath.Base`: the last element of the path, after removing
trailing slashes; "." for an empty path, "/" when the path is all slashes.
Paths here are ASCII, so the byte/rune distinction is immaterial. -/
def goFilepathBase (path : String) : String :=
  if path.data = [] then "."
  else
    let cs := dropTrailingSlashes path.data
    if cs = [] then "/" else ⟨afterLastSlash cs⟩

/-- Go `filepath.Ext`: the suffix beginning at the final dot in the final
slash-separated element of the path; empty when that element has no dot. -/
def goFilepathExt (path : String) : String :=
  let finalElemRev := path.data.reverse.takeWhile (· ≠ '/')
  let preRev := finalElemRev.takeWhile (· ≠ '.')
  if preRev.length = finalElemRev.length then "" else ⟨(preRev ++ ['.']).reverse⟩

/-- The api_proxy value computed by `StoreMetrics`
(src/internal/storage/parquet.go lines 82-84):
`apiProxy := filepath.Base(filename)` with the extension sliced off
(`apiProxy[:len(apiProxy)-len(filepath.Ext(apiProxy))]`). -/
def storeApiProxy (filename : String) : String :=
  let apiProxy := goFilepathBase filename
  ⟨apiProxy.data.take (apiProxy.data.length - (goFilepathExt apiProxy).data.length)⟩

/-- Date stamped on every row by `StoreMetrics`
(src/internal/storage/parquet.go lines 76-80): `time.Now().Format("2006-01-02")`,
overridden by the first sample's timestamp when samples exist.  Go's
`Format` renders in the time's location; `loc` is the process's
local-timezone offset in ms (0 for UTC). -/
def storeDate (loc : Int) (now : GoTime) (metrics : List MetricResult) : String :=
  match metrics with
  | [] => formatDate (now + loc)
  | m :: _ => formatDate (m.timestamp + loc)

/-- Row of the output file (parquet.go `MetricRecord`). -/
structure MetricRecord where
  timestamp : Int
  metricName : String
  value : Float
  apiProxy : String
  labels : List (String × String)
  date : String

/-- Rows written by `StoreMetrics` (src/internal/storage/parquet.go lines
76-100): one row per sample; every row of a call shares one date string and
one apiProxy string, the latter parsed out of the output file name. -/
def storeMetricsRows (loc : Int) (now : GoTime) (metrics : List MetricResult)
    (filename : String) : List MetricRecord :=
  let date := storeDate loc now metrics
  let apiProxy := storeApiProxy filename
  metrics.map fun m =>
    { timestamp := m.timestamp, metricName := m.name, value := m.value,
      apiProxy := apiProxy, labels := m.labels, date := date }

/-- Outcome of the finalization step of a store call. -/
inductive FinalizeOutcome where
  | completed : Option String → FinalizeOutcome
  | timedOut : FinalizeOutcome
deriving DecidableEq, Repr

/-- Finalization step of `StoreMetrics` in src/internal/storage/parquet.go
(lines 102-107): `pw.WriteStop()` is called directly and its result is
returned; the configured `writeStopTimeout` is never consulted, so the call
waits for however long finalization takes — `elapsed` (the duration
`WriteStop` takes) and `timeout` are both unused. -/
def finalizeParquetGo (_elapsed _timeout : GoDuration)
    (writeStopErr : Option String) : FinalizeOutcome :=
  .completed writeStopErr

/-- Finalization step of the `StoreMetrics` revision in src/unnamed/part_004
(lines 93-106): `WriteStop` runs in a goroutine and a `select` races its
completion (after `elapsed`) against `time.After(timeout)`; the
simultaneous case is resolved in favour of completion. -/
def finalizePart004 (elapsed timeout : GoDuration)
    (writeStopErr : Option String) : FinalizeOutcome :=
  if elapsed ≤ timeout then .completed writeStopErr else .timedOut

/-- Prometheus section of the configuration (pkg/config, the revision in
src/unnamed/part_003 carrying the range-query fields). -/
structure PrometheusConfig where
  url : String
  timeout : GoDuration
  username : String
  password : String
  metrics : List MetricConfig
  useRangeQuery : Bool
  rangeStep : GoDuration
deriving Repr

/-- Storage section of the configuration. -/
structure StorageConfig where
  outputDir : String
  compression : String
  rowGroupSize : Int
  writeStopTimeout : GoDuration
deriving DecidableEq, Repr

/-- Application configuration (`Config`); `startTime`/`endTime` are only
ever set from the command-line flags and default to the zero time. -/
structure Config where
  debug : Bool
  apiProxies : List String
  prometheus : PrometheusConfig
  storage : StorageConfig
  startTime : GoTime
  endTime : GoTime
deriving Repr

/-- Flag overrides applied by `main` (main.go lines 88-109): `--range` sets
`useRangeQuery`; when both `--start` and `--end` are non-empty and parse as
RFC3339 (`times` is the parsed pair; a parse failure exits the process and
is outside this model), `useRangeQuery` is forced on and the parsed
instants are stored in the configuration. -/
def applyFlags (cfg : Config) (useRangeFlag : Bool)
    (times : Option (GoTime × GoTime)) : Config :=
  let cfg1 := if useRangeFlag then
    { cfg with prometheus := { cfg.prometheus with useRangeQuery := true } }
  else cfg
  match times with
  | some se =>
    { cfg1 with
        prometheus := { cfg1.prometheus with useRangeQuery := true }
        startTime := se.1
        endTime := se.2 }
  | none => cfg1

/-- Mode test of `collectAndStore` (main.go line 171): the range branch runs
iff `cfg.Prometheus.UseRangeQuery && !cfg.StartTime.IsZero() && !cfg.EndTime.IsZero()`. -/
def usesRangeMode (cfg : Config) : Bool :=
  cfg.prometheus.useRangeQuery && !(isZeroTime cfg.startTime) && !(isZeroTime cfg.endTime)

/-- Observable step of one driver run. -/
inductive DriverEvent where
  | collectAttempt (apiProxy : String) (window : Option TimeRange)
  | collectFailed (apiProxy : String) (errs : List String)
  | emptySkipped (apiProxy : String)
  | storeAttempt (apiProxy : String) (filename : String) (metrics : List MetricResult)
  | storeFailed (apiProxy : String) (err : String)
  | storeSucceeded (apiProxy : String) (filename : String)

/-- Output key of a range batch (main.go lines 225-231):
`{outputDir}/year=YYYY/month=MM/day=DD/app={apiProxy}/metrics_<startHHMMSS>_<endHHMMSS>.parquet`,
with the date parts taken from the batch start. -/
def batchFilename (outputDir : String) (loc : Int) (apiProxy : String)
    (batchStart batchEnd : GoTime) : String :=
  outputDir ++ "/year=" ++ formatYear (batchStart + loc) ++
    "/month=" ++ formatMonth (batchStart + loc) ++
    "/day=" ++ formatDay (batchStart + loc) ++
    "/app=" ++ apiProxy ++
    "/metrics_" ++ formatHMS (batchStart + loc) ++ "_" ++ formatHMS (batchEnd + loc) ++ ".parquet"

/-- Output key of an instant-mode unit (main.go lines 273-274). -/
def instantFilename (outputDir : String) (loc : Int) (apiProxy : String)
    (fileDate : GoTime) : String :=
  outputDir ++ "/year=" ++ formatYear (fileDate + loc) ++
    "/month=" ++ formatMonth (fileDate + loc) ++
    "/day=" ++ formatDay (fileDate + loc) ++
    "/app=" ++ apiProxy ++ "/metrics.parquet"

/-- One (target, batch) unit of the range branch of `collectAndStore`
(main.go lines 189-255): collect; on error log and continue; on zero
samples log and continue without calling the sink; otherwise store, and
continue whether or not the store failed. -/
def processBatch (store : List MetricResult → String → Option String)
    (collectRange : String → TimeRange → Except (List String) (List MetricResult))
    (cfg : Config) (loc : Int) (apiProxy : String) (b : Int × Int) : List DriverEvent :=
  let tr : TimeRange := ⟨b.1, b.2, cfg.prometheus.rangeStep⟩
  DriverEvent.collectAttempt apiProxy (some tr) ::
    match collectRange apiProxy tr with
    | .error errs => [.collectFailed apiProxy errs]
    | .ok metrics =>
      if metrics.isEmpty then [.emptySkipped apiProxy]
      else
        let fn := batchFilename cfg.storage.outputDir loc apiProxy b.1 b.2
        .storeAttempt apiProxy fn metrics ::
          match store metrics fn with
          | some e => [.storeFailed apiProxy e]
          | none => [.storeSucceeded apiProxy fn]

/-- One target of the instant branch of `collectAndStore` (main.go lines
256-286): collect once; on error log and continue to the next target;
otherwise store (the empty result is NOT special-cased here) and continue
whether or not the store failed. -/
def processInstantTarget (store : List MetricResult → String → Option String)
    (collectInstant : String → Except (List String) (List MetricResult))
    (cfg : Config) (loc : Int) (fileDate : GoTime) (apiProxy : String) : List DriverEvent :=
  DriverEvent.collectAttempt apiProxy none ::
    match collectInstant apiProxy with
    | .error errs => [.collectFailed apiProxy errs]
    | .ok metrics =>
      let fn := instantFilename cfg.storage.outputDir loc apiProxy fileDate
      .storeAttempt apiProxy fn metrics ::
        match store metrics fn with
        | some e => [.storeFailed apiProxy e]
        | none => [.storeSucceeded apiProxy fn]

/-- The collection driver `collectAndStore` (main.go lines 151-292): the
file-partition date is the configured start time when set, else "now"; each
configured target is processed sequentially; in range mode the planned
batches of that target are processed in order.  `collectInstant`,
`collectRange` and `store` are the collaborator calls; their results are
the only effects the driver branches on. -/
def collectAndStore (collectInstant : String → Except (List String) (List MetricResult))
    (collectRange : String → TimeRange → Except (List String) (List MetricResult))
    (store : List MetricResult → String → Option String)
    (cfg : Config) (now : GoTime) (loc : Int) : List DriverEvent :=
  let fileDate := if !(isZeroTime cfg.startTime) then cfg.startTime else now
  cfg.apiProxies.flatMap fun apiProxy =>
    if usesRangeMode cfg then
      (planBatches cfg.startTime cfg.endTime batchDurationMs).flatMap
        (processBatch store collectRange cfg loc apiProxy)
    else
      processInstantTarget store collectInstant cfg loc fileDate apiProxy

/-- Collect attempts recorded in an event list, with their windows. -/
def collectAttempts (evs : List DriverEvent) : List (String × Option TimeRange) :=
  evs.filterMap fun ev => match ev with
    | .collectAttempt p w => some (p, w)
    | _ => none

/-- Sink interactions recorded in an event list. -/
def storeEvents (evs : List DriverEvent) : List DriverEvent :=
  evs.filter fun ev => match ev with
    | .storeAttempt _ _ _ => true
    | .storeSucceeded _ _ => true
    | _ => false

/-- Failure events recorded in an event list. -/
def failEvents (evs : List DriverEvent) : List DriverEvent :=
  evs.filter fun ev => match ev with
    | .collectFailed _ _ => true
    | .storeFailed _ _ => true
    | _ => false

/-- The units a run is supposed to attempt: every (target, batch window)
pair in range mode, every target once in instant mode. -/
def plannedUnits (cfg : Config) : List (String × Option TimeRange) :=
  if usesRangeMode cfg then
    cfg.apiProxies.flatMap fun p =>
      (planBatches cfg.startTime cfg.endTime batchDurationMs).map
        fun b => (p, some ⟨b.1, b.2, cfg.prometheus.rangeStep⟩)
  else
    cfg.apiProxies.map fun p => (p, none)

/-- Concrete configuration mirroring config/config.yaml after loading:
`useRangeQuery` unset (false), start/end times at their zero default. -/
def sampleConfig : Config :=
  { debug := false
    apiProxies := ["memento", "ice-validator-v1"]
    prometheus :=
      { url := "http://localhost:9080"
        timeout := 30000
        username := ""
        password := ""
        metrics := [MetricConfig.mk "request_count"
          "sum(increase(istio_requests_total\x7bapp=\"%s\"\x7d[1h] )) by (app)" ["app"]]
        useRangeQuery := false
        rangeStep := 3600000 }
    storage :=
      { outputDir := "./data"
        compression := "snappy"
        rowGroupSize := 134217728
        writeStopTimeout := 180000 }
    startTime := goZeroTimeMs
    endTime := goZeroTimeMs }

/-- The sample configuration as the flags `--start 2025-04-07T00:00:00Z`
and `--end 2025-04-08T00:00:00Z` leave it: range mode enabled. -/
def rangeConfig : Config :=
  applyFlags sampleConfig false (some (1743984000000, 1744070400000))

def wBackend : String → QueryReply := fun _ => QueryReply.failure "connection refused"

def wBackendR : String → TimeRange → QueryReply := fun _ _ => QueryReply.failure "connection refused"

def wMetrics : List MetricConfig :=
  [MetricConfig.mk "request_count" "up" [], MetricConfig.mk "error_rate" "up2" []]

theorem planLoop_pos {endT bd bs : Int} (h1 : bs < endT) (h2 : 0 < bd) :
    planLoop endT bd bs =
      (bs, if endT < bs + bd then endT else bs + bd) :: planLoop endT bd (bs + bd) := by
  rw [planLoop, dif_pos ⟨h1, h2⟩]

theorem planLoop_neg {endT bd bs : Int} (h : ¬ bs < endT) :
    planLoop endT bd bs = [] := by
  rw [planLoop, dif_neg]
  tauto

theorem planLoop_spec (endT bd bs : Int) (hbd : 0 < bd) (hlt : bs < endT) :
    (planLoop endT bd bs).head?.map Prod.fst = some bs ∧
      (planLoop endT bd bs).getLast?.map Prod.snd = some endT ∧
      Contiguous (planLoop endT bd bs) ∧
      ∀ p ∈ planLoop endT bd bs, p.1 < p.2 ∧ p.2 - p.1 ≤ bd ∧ p.2 ≤ endT := by
  by_cases hnext : bs + bd < endT
  · obtain ⟨ih1, ih2, ih3, ih4⟩ := planLoop_spec endT bd (bs + bd) hbd hnext
    have heq : planLoop endT bd bs = (bs, bs + bd) :: planLoop endT bd (bs + bd) := by
      rw [planLoop_pos hlt hbd, if_neg (by omega)]
    obtain ⟨q, rest, hq⟩ : ∃ q rest, planLoop endT bd (bs + bd) = q :: rest := by
      cases hpl : planLoop endT bd (bs + bd) with
      | nil => rw [hpl] at ih1; simp at ih1
      | cons q rest => exact ⟨q, rest, rfl⟩
    have hqfst : q.1 = bs + bd := by
      rw [hq] at ih1
      simp at ih1
      exact ih1
    refine ⟨by rw [heq]; rfl, ?_, ?_, ?_⟩
    · rw [heq, hq, List.getLast?_cons_cons, ← hq, ih2]
    · rw [heq, hq]
      exact ⟨hqfst.symm, by rw [← hq]; exact ih3⟩
    · intro p hp
      rw [heq] at hp
      rcases List.mem_cons.mp hp with hp0 | hp1
      · subst hp0
        exact ⟨by omega, by omega, by omega⟩
      · exact ih4 p hp1
  · have heq : planLoop endT bd bs = [(bs, endT)] := by
      have hend : (if endT < bs + bd then endT else bs + bd) = endT := by
        split <;> omega
      rw [planLoop_pos hlt hbd, hend, planLoop_neg (by omega)]
    rw [heq]
    refine ⟨rfl, rfl, by constructor, ?_⟩
    intro p hp
    rcases List.mem_singleton.mp hp with rfl
    exact ⟨by omega, by omega, by omega⟩
termination_by (endT - bs).toNat
decreasing_by
  simp_wf
  omega

/-- C1 (amended): for every globalRange with `start < end` and every
`maxBatchSpan > 0`, the planned batch sequence is non-empty, contiguous
(adjacent batches share an endpoint, hence non-overlapping and strictly
increasing, since each batch's start is below its end), the first batch
starts at `globalRange.start`, the last ends at `globalRange.end`, every
batch's span is at most `maxBatchSpan`, and when the range's duration is at
most `maxBatchSpan` exactly one batch equal to the whole range is produced.
The original claim quantified over every globalRange; it fails only for
the empty range, where the loop yields no batch (see the counterexample). -/
theorem planBatches_partition (s e span : Int) (hse : s < e) (hspan : 0 < span) :
    planBatches s e span ≠ [] ∧
      (planBatches s e span).head?.map Prod.fst = some s ∧
      (planBatches s e span).getLast?.map Prod.snd = some e ∧
      Contiguous (planBatches s e span) ∧
      (∀ p ∈ planBatches s e span, p.1 < p.2 ∧ p.2 - p.1 ≤ span) ∧
      (e - s ≤ span → planBatches s e span = [(s, e)]) := by
  have hbd : planBatches s e span = planLoop e (if e - s < span then e - s else span) s := rfl
  set bd := if e - s < span then e - s else span with hbddef
  have hbdpos : 0 < bd := by rw [hbddef]; split <;> omega
  have hbdle : bd ≤ span := by rw [hbddef]; split <;> omega
  obtain ⟨h1, h2, h3, h4⟩ := planLoop_spec e bd s hbdpos hse
  refine ⟨?_, by rw [hbd]; exact h1, by rw [hbd]; exact h2, by rw [hbd]; exact h3, ?_, ?_⟩
  · rw [hbd]
    intro hnil
    rw [hnil] at h1
    simp at h1
  · intro p hp
    rw [hbd] at hp
    obtain ⟨ha, hb, -⟩ := h4 p hp
    exact ⟨ha, le_trans hb hbdle⟩
  · intro hle
    have hbde : bd = e - s := by rw [hbddef]; split <;> omega
    have hse2 : s + (e - s) = e := by omega
    rw [hbd, hbde, planLoop_pos hse (by omega), if_neg (by omega),
      planLoop_neg (by omega), hse2]

/-- Witness for C1 at a concrete range: `[0, 10)` with span 6 splits into
`[(0, 6), (6, 10)]`-shaped batches satisfying every conjunct. -/
theorem planBatches_partition_witness :
    (0 : Int) < 10 ∧ (0 : Int) < 6 ∧
      (planBatches 0 10 6 ≠ [] ∧
        (planBatches 0 10 6).head?.map Prod.fst = some 0 ∧
        (planBatches 0 10 6).getLast?.map Prod.snd = some 10 ∧
        Contiguous (planBatches 0 10 6) ∧
        (∀ p ∈ planBatches 0 10 6, p.1 < p.2 ∧ p.2 - p.1 ≤ 6) ∧
        ((10 : Int) - 0 ≤ 6 → planBatches 0 10 6 = [(0, 10)])) :=
  ⟨by norm_num, by norm_num, planBatches_partition 0 10 6 (by norm_num) (by norm_num)⟩

/-- Counterexample for C1 as stated: the empty global range
(--start = --end = 2025-04-07T00:00:00Z, i.e. 1743984000000 ms) has
duration 0 ≤ 6h, yet the planning loop produces NO batch at all instead of
exactly one batch equal to the whole range: the clamped batch duration is 0
and `batchStart.Before(cfg.EndTime)` is false on entry. -/
theorem planBatches_empty_range_counterexample :
    planBatches 1743984000000 1743984000000 batchDurationMs = [] ∧
      (1743984000000 : Int) - 1743984000000 ≤ batchDurationMs := by
  refine ⟨?_, by norm_num [batchDurationMs]⟩
  have h0 : planBatches 1743984000000 1743984000000 batchDurationMs
      = planLoop 1743984000000 (0 : Int) 1743984000000 := by
    simp [planBatches, batchDurationMs]
  rw [h0]
  exact planLoop_neg (by norm_num)

/-- Counterexample for C3 as stated: in instant mode a matrix-shaped
backend result is NOT rejected — the `CollectMetrics` type switch contains
a `model.ValMatrix` case — so this non-vector shape yields samples instead
of an unsupported-result-shape error. -/
theorem processInstantResult_matrix_accepted :
    processInstantResult "request_count"
        (PromValue.matrix [([("app", "memento")], [(1743984000000, 12.0)])]) =
      Except.ok [MetricResult.mk "request_count" 1743984000000 12.0 [("app", "memento")]] := rfl

/-- C3 (amended): the instant-mode result switch accepts vector- and
matrix-shaped results and fails exactly on every other shape (scalar,
string) with an unsupported-result-type error; a failing shape contributes
no samples, since `Except.error` carries none. -/
theorem processInstantResult_shape (name : String) (v : PromValue) :
    (∃ e, processInstantResult name v = .error e) ↔
      (v.typeString ≠ "vector" ∧ v.typeString ≠ "matrix") := by
  cases v <;> simp [processInstantResult, PromValue.typeString]

/-- C4 (the code evaluated at the failing input): for the driver's own
instant-mode output key, `StoreMetrics` stamps every row's api_proxy with
"metrics" — the file's base name with its extension stripped (parquet.go
lines 82-84) — and not with the target "ice-validator-v1" from the `app=`
path segment; the row construction never receives the target at all. -/
theorem storeMetricsRows_apiProxy_from_filename :
    (storeMetricsRows 0 1743984000000
        [MetricResult.mk "request_count" 1743984000000 12.0 [("app", "ice-validator-v1")]]
        "data/year=2025/month=04/day=08/app=ice-validator-v1/metrics.parquet").map
        (fun r => r.apiProxy) = ["metrics"] ∧
      ("metrics" : String) ≠ "ice-validator-v1" :=
  ⟨rfl, by decide⟩

/-- C5 (amended): for every non-empty sample sequence, every row written by
`StoreMetrics` (src/internal/storage/parquet.go) carries one shared date —
the `Format("2006-01-02")` rendering, at the process's local offset, of the
FIRST sample's timestamp — rather than a per-row date derived from that
row's own timestamp. -/
theorem storeMetricsRows_shared_first_date (loc : Int) (now : GoTime)
    (fn : String) (m0 : MetricResult) (rest : List MetricResult) :
    ∀ r ∈ storeMetricsRows loc now (m0 :: rest) fn,
      r.date = formatDate (m0.timestamp + loc) := by
  intro r hr
  simp only [storeMetricsRows] at hr
  obtain ⟨m, _hm, rfl⟩ := List.mem_map.mp hr
  rfl

/-- Witness for C5's amended statement: a single stored sample's row is in
the output, with the first (here: only) sample's date stamped on it. -/
theorem storeMetricsRows_shared_first_date_witness :
    (MetricRecord.mk 1743984000000 "request_count" 12.0 "metrics" [] "2025-04-07")
        ∈ storeMetricsRows 0 0 [MetricResult.mk "request_count" 1743984000000 12.0 []]
          "data/year=2025/month=04/day=07/app=x/metrics.parquet" ∧
      (MetricRecord.mk 1743984000000 "request_count" 12.0 "metrics" [] "2025-04-07").date
        = formatDate ((MetricResult.mk "request_count" 1743984000000 12.0 []).timestamp + 0) := by
  have hmem : (MetricRecord.mk 1743984000000 "request_count" 12.0 "metrics" [] "2025-04-07")
      ∈ storeMetricsRows 0 0 [MetricResult.mk "request_count" 1743984000000 12.0 []]
        "data/year=2025/month=04/day=07/app=x/metrics.parquet" := by
    have h : storeMetricsRows 0 0 [MetricResult.mk "request_count" 1743984000000 12.0 []]
        "data/year=2025/month=04/day=07/app=x/metrics.parquet"
        = [MetricRecord.mk 1743984000000 "request_count" 12.0 "metrics" [] "2025-04-07"] := rfl
    rw [h]
    exact List.mem_singleton.mpr rfl
  refine ⟨hmem, ?_⟩
  exact storeMetricsRows_shared_first_date 0 0
    "data/year=2025/month=04/day=07/app=x/metrics.parquet"
    (MetricResult.mk "request_count" 1743984000000 12.0 []) [] _ hmem

/-- Counterexample for C5 as stated: two samples one UTC day apart are both
stamped with the first sample's date, so the second row's date column
differs from the YYYY-MM-DD rendering of that row's own timestamp; and
with a non-zero local offset (UTC+2) even a single sample's stamped date
differs from its timestamp's UTC rendering. -/
theorem storeMetricsRows_date_counterexample :
    (storeMetricsRows 0 0
          [MetricResult.mk "m" 0 1.0 [], MetricResult.mk "m" 86400000 2.0 []]
          "data/app=x/metrics.parquet").map (fun r => (r.date, formatDate r.timestamp)) =
        [("1970-01-01", "1970-01-01"), ("1970-01-01", "1970-01-02")] ∧
      (storeMetricsRows 7200000 0 [MetricResult.mk "m" 82800000 1.0 []]
          "data/app=x/metrics.parquet").map (fun r => r.date) = ["1970-01-02"] ∧
      formatDate 82800000 = "1970-01-01" :=
  ⟨rfl, rfl, rfl⟩

/-- C8 (the code evaluated at the failing input): with the default 180s
writeStopTimeout and a finalization taking 200s, the `StoreMetrics` of
src/internal/storage/parquet.go still returns `WriteStop`'s own result —
the configured timeout is never consulted — while the revision in
src/unnamed/part_004 returns the claimed timeout failure there and
finalization's own result when it completes in time. -/
theorem finalize_timeout_divergence :
    finalizeParquetGo 200000 180000 none = FinalizeOutcome.completed none ∧
      finalizeParquetGo 200000 180000 none ≠ FinalizeOutcome.timedOut ∧
      finalizePart004 200000 180000 none = FinalizeOutcome.timedOut ∧
      finalizePart004 170000 180000 (some "disk full") = FinalizeOutcome.completed (some "disk full") :=
  ⟨rfl, by decide, by decide, by decide⟩

/-- Counterexample for C10 as stated: `--start=0001-01-01T00:00:00Z` (a
valid RFC3339 timestamp that parses to Go's zero time) together with a
valid `--end` sets both times and forces `useRangeQuery` on, yet the
driver still takes the instant path because `cfg.StartTime.IsZero()`
holds. -/
theorem applyFlags_zero_time_counterexample :
    usesRangeMode (applyFlags sampleConfig false (some (goZeroTimeMs, 1744070400000))) = false ∧
      (applyFlags sampleConfig false
        (some (goZeroTimeMs, 1744070400000))).prometheus.useRangeQuery = true :=
  ⟨rfl, rfl⟩

/-- C10 (amended): supplying both `--start` and `--end` with successfully
parsed timestamps, neither of which is Go's zero time, forces range mode
for the whole run even when the `--range` flag is off and `useRangeQuery`
is false in the configuration; supplying `--range` alone leaves a loaded
configuration (whose start time is still the zero default) on the
instant-query path. -/
theorem applyFlags_mode (cfg : Config) (rangeFlag : Bool) (s e : GoTime)
    (hs : isZeroTime s = false) (he : isZeroTime e = false) :
    usesRangeMode (applyFlags cfg rangeFlag (some (s, e))) = true ∧
      (isZeroTime cfg.startTime = true →
        usesRangeMode (applyFlags cfg true none) = false) := by
  constructor
  · cases rangeFlag <;> simp [applyFlags, usesRangeMode, hs, he]
  · intro hz
    simp [applyFlags, usesRangeMode, hz]

/-- Witness for C10's amended statement at the loaded sample configuration
and the spec's example window. -/
theorem applyFlags_mode_witness :
    isZeroTime (1743984000000 : GoTime) = false ∧
      isZeroTime (1744070400000 : GoTime) = false ∧
      (usesRangeMode (applyFlags sampleConfig false
          (some (1743984000000, 1744070400000))) = true ∧
        (isZeroTime sampleConfig.startTime = true →
          usesRangeMode (applyFlags sampleConfig true none) = false)) :=
  ⟨by decide, by decide,
    applyFlags_mode sampleConfig false 1743984000000 1744070400000 (by decide) (by decide)⟩


theorem sprintfAux_nil_used (arg : List Char) : sprintfAux arg [] true = [] := by
  conv_lhs => rw [sprintfAux.eq_def]
  simp

theorem sprintfAux_cons_ne (arg cs : List Char) (c : Char) (used : Bool) (hc : c ≠ '%') :
    sprintfAux arg (c :: cs) used = c :: sprintfAux arg cs used := by
  conv_lhs => rw [sprintfAux.eq_def]
  simp [hc]

theorem sprintfAux_percent_s (arg post : List Char) :
    sprintfAux arg ('%' :: 's' :: post) false = arg ++ sprintfAux arg post true := by
  conv_lhs => rw [sprintfAux.eq_def]
  simp

theorem sprintfAux_no_percent (arg : List Char) (cs : List Char) (h : '%' ∉ cs) :
    sprintfAux arg cs true = cs := by
  induction cs with
  | nil => exact sprintfAux_nil_used arg
  | cons c cs ih =>
    have hc : c ≠ '%' := fun hcc => h (hcc ▸ List.mem_cons_self c cs)
    have hcs : '%' ∉ cs := fun hm => h (List.mem_cons_of_mem c hm)
    rw [sprintfAux_cons_ne arg cs c true hc, ih hcs]

theorem sprintfAux_subst (arg pre post : List Char) (h : '%' ∉ pre) :
    sprintfAux arg (pre ++ '%' :: 's' :: post) false = pre ++ arg ++ sprintfAux arg post true := by
  induction pre with
  | nil =>
    simp only [List.nil_append]
    rw [sprintfAux_percent_s]
  | cons c pre ih =>
    have hc : c ≠ '%' := fun hcc => h (hcc ▸ List.mem_cons_self c pre)
    have hpre : '%' ∉ pre := fun hm => h (List.mem_cons_of_mem c hm)
    rw [List.cons_append, sprintfAux_cons_ne _ _ _ _ hc, ih hpre]
    simp

/-- C7: substituting a target into a query template whose single placeholder
is `%s` (and which contains no other placeholder character) yields exactly
the template with the target at the placeholder; in particular, on the
repository's configured template and target `memento`, the label match
`app="memento"` occurs exactly once in the result and no placeholder
character remains. -/
theorem replaceAPIProxyInQuery_substitution :
    (∀ pre post target : String, '%' ∉ pre.data → '%' ∉ post.data →
        replaceAPIProxyInQuery (pre ++ "%s" ++ post) target = pre ++ target ++ post) ∧
      countOccurrences (replaceAPIProxyInQuery
          "sum(increase(istio_requests_total\x7bapp=\"%s\"\x7d[1h] )) by (app)" "memento")
          "app=\"memento\"" = 1 ∧
      '%' ∉ (replaceAPIProxyInQuery
          "sum(increase(istio_requests_total\x7bapp=\"%s\"\x7d[1h] )) by (app)" "memento").data := by
  have main : ∀ pre post target : String, '%' ∉ pre.data → '%' ∉ post.data →
      replaceAPIProxyInQuery (pre ++ "%s" ++ post) target = pre ++ target ++ post := by
    intro pre post target hpre hpost
    apply String.ext
    show sprintfAux target.data (pre ++ "%s" ++ post).data false = (pre ++ target ++ post).data
    rw [String.data_append, String.data_append, String.data_append, String.data_append]
    have hps : ("%s" : String).data = '%' :: 's' :: [] := rfl
    rw [hps, List.append_assoc]
    show sprintfAux target.data (pre.data ++ '%' :: 's' :: post.data) false = _
    rw [sprintfAux_subst target.data pre.data post.data hpre,
      sprintfAux_no_percent target.data post.data hpost, List.append_assoc]
  have hconc : replaceAPIProxyInQuery
      "sum(increase(istio_requests_total\x7bapp=\"%s\"\x7d[1h] )) by (app)" "memento"
      = "sum(increase(istio_requests_total\x7bapp=\"memento\"\x7d[1h] )) by (app)" := by
    have h := main "sum(increase(istio_requests_total\x7bapp=\"" "\"\x7d[1h] )) by (app)"
      "memento" (by decide) (by decide)
    rw [show ("sum(increase(istio_requests_total\x7bapp=\"" ++ "%s" ++ "\"\x7d[1h] )) by (app)" : String)
        = "sum(increase(istio_requests_total\x7bapp=\"%s\"\x7d[1h] )) by (app)" from rfl] at h
    rw [h]
    rfl
  refine ⟨main, by rw [hconc]; decide, by rw [hconc]; decide⟩

/-- Witness for C7: the general substitution conjunct applied to the
repository's template split at its placeholder. -/
theorem replaceAPIProxyInQuery_substitution_witness :
    ('%' ∉ ("sum(increase(istio_requests_total\x7bapp=\"" : String).data) ∧
      ('%' ∉ ("\"\x7d[1h] )) by (app)" : String).data) ∧
      replaceAPIProxyInQuery
          ("sum(increase(istio_requests_total\x7bapp=\"" ++ "%s" ++ "\"\x7d[1h] )) by (app)")
          "memento"
        = "sum(increase(istio_requests_total\x7bapp=\"" ++ "memento" ++ "\"\x7d[1h] )) by (app)" :=
  ⟨by decide, by decide,
    replaceAPIProxyInQuery_substitution.1
      "sum(increase(istio_requests_total\x7bapp=\"" "\"\x7d[1h] )) by (app)"
      "memento" (by decide) (by decide)⟩

theorem aggregate_filterMap_mem (run : MetricConfig → Except String (List MetricResult))
    (l : List MetricConfig) (e : String) :
    e ∈ (l.map run).filterMap (fun o => match o with
        | .error e2 => some e2
        | .ok _ => none) ↔ ∃ m ∈ l, run m = .error e := by
  rw [List.filterMap_map]
  constructor
  · intro h
    obtain ⟨m, hm, hf⟩ := List.mem_filterMap.mp h
    refine ⟨m, hm, ?_⟩
    revert hf
    cases hrun : run m with
    | error e2 => intro hf; simp only [Function.comp, hrun] at hf; simp at hf; rw [hf]
    | ok _ => intro hf; simp only [Function.comp, hrun] at hf; simp at hf
  · rintro ⟨m, hm, hrun⟩
    exact List.mem_filterMap.mpr ⟨m, hm, by simp only [Function.comp, hrun]⟩

theorem aggregate_isEmpty_false (run : MetricConfig → Except String (List MetricResult))
    (l : List MetricConfig) (m : MetricConfig) (e : String)
    (hm : m ∈ l) (he : run m = .error e) :
    ((l.map run).filterMap (fun o => match o with
        | .error e2 => some e2
        | .ok _ => none)).isEmpty = false := by
  have hmem := (aggregate_filterMap_mem run l e).mpr ⟨m, hm, he⟩
  cases hlist : (l.map run).filterMap (fun o => match o with
      | .error e2 => some e2
      | .ok _ => none) with
  | nil => rw [hlist] at hmem; simp at hmem
  | cons a t => rfl

/-- C2: in both the instant and the range Target Collector, if at least one
of the concurrently launched per-metric queries fails, the whole call
returns an error and no samples — `Except.error` carries no result, so
successful metrics' samples are discarded — and the returned aggregate
error contains exactly the error of every failing metric (each of which
names its metric), not just the first. -/
theorem collect_aggregate_atomicity
    (backend : String → QueryReply) (backendR : String → TimeRange → QueryReply)
    (cfgMetrics : List MetricConfig) (apiProxy : String) (tr : TimeRange)
    (m mR : MetricConfig) (e eR : String)
    (hm : m ∈ cfgMetrics) (he : runInstantMetric backend apiProxy m = .error e)
    (hmR : mR ∈ cfgMetrics) (heR : runRangeMetric backendR apiProxy tr mR = .error eR) :
    (∃ es, collectMetrics backend cfgMetrics apiProxy = .error es ∧ e ∈ es ∧
        (∀ m2 ∈ cfgMetrics, ∀ e2, runInstantMetric backend apiProxy m2 = .error e2 → e2 ∈ es) ∧
        (∀ e2 ∈ es, ∃ m2 ∈ cfgMetrics, runInstantMetric backend apiProxy m2 = .error e2)) ∧
      (∃ es, collectMetricsRange backendR cfgMetrics apiProxy tr = .error es ∧ eR ∈ es ∧
        (∀ m2 ∈ cfgMetrics, ∀ e2, runRangeMetric backendR apiProxy tr m2 = .error e2 → e2 ∈ es) ∧
        (∀ e2 ∈ es, ∃ m2 ∈ cfgMetrics, runRangeMetric backendR apiProxy tr m2 = .error e2)) := by
  constructor
  · refine ⟨(cfgMetrics.map (runInstantMetric backend apiProxy)).filterMap (fun o => match o with
      | .error e2 => some e2
      | .ok _ => none), ?_, ?_, ?_, ?_⟩
    · simp only [collectMetrics]
      rw [aggregate_isEmpty_false (runInstantMetric backend apiProxy) cfgMetrics m e hm he]
      rfl
    · exact (aggregate_filterMap_mem _ _ _).mpr ⟨m, hm, he⟩
    · intro m2 hm2 e2 he2
      exact (aggregate_filterMap_mem _ _ _).mpr ⟨m2, hm2, he2⟩
    · intro e2 he2
      exact (aggregate_filterMap_mem _ _ _).mp he2
  · refine ⟨(cfgMetrics.map (runRangeMetric backendR apiProxy tr)).filterMap (fun o => match o with
      | .error e2 => some e2
      | .ok _ => none), ?_, ?_, ?_, ?_⟩
    · simp only [collectMetricsRange]
      rw [aggregate_isEmpty_false (runRangeMetric backendR apiProxy tr) cfgMetrics mR eR hmR heR]
      rfl
    · exact (aggregate_filterMap_mem _ _ _).mpr ⟨mR, hmR, heR⟩
    · intro m2 hm2 e2 he2
      exact (aggregate_filterMap_mem _ _ _).mpr ⟨m2, hm2, he2⟩
    · intro e2 he2
      exact (aggregate_filterMap_mem _ _ _).mp he2

/-- Witness for C2: two configured metrics against an unreachable backend;
the per-metric calls fail, the aggregate error carries every failing
metric's error, and no samples are returned. -/
theorem collect_aggregate_atomicity_witness :
    (runInstantMetric wBackend "memento" (MetricConfig.mk "request_count" "up" []) =
        .error "error querying Prometheus for metric request_count: connection refused") ∧
      (runRangeMetric wBackendR "memento" (TimeRange.mk 0 10 1)
          (MetricConfig.mk "request_count" "up" []) =
        .error "error querying Prometheus range for metric request_count: connection refused") ∧
      ((∃ es, collectMetrics wBackend wMetrics "memento" = .error es ∧
          "error querying Prometheus for metric request_count: connection refused" ∈ es ∧
          (∀ m2 ∈ wMetrics, ∀ e2, runInstantMetric wBackend "memento" m2 = .error e2 → e2 ∈ es) ∧
          (∀ e2 ∈ es, ∃ m2 ∈ wMetrics, runInstantMetric wBackend "memento" m2 = .error e2)) ∧
        (∃ es, collectMetricsRange wBackendR wMetrics "memento" (TimeRange.mk 0 10 1) = .error es ∧
          "error querying Prometheus range for metric request_count: connection refused" ∈ es ∧
          (∀ m2 ∈ wMetrics, ∀ e2,
            runRangeMetric wBackendR "memento" (TimeRange.mk 0 10 1) m2 = .error e2 → e2 ∈ es) ∧
          (∀ e2 ∈ es, ∃ m2 ∈ wMetrics,
            runRangeMetric wBackendR "memento" (TimeRange.mk 0 10 1) m2 = .error e2))) :=
  ⟨rfl, rfl,
    collect_aggregate_atomicity wBackend wBackendR wMetrics "memento" (TimeRange.mk 0 10 1)
      (MetricConfig.mk "request_count" "up" []) (MetricConfig.mk "request_count" "up" [])
      "error querying Prometheus for metric request_count: connection refused"
      "error querying Prometheus range for metric request_count: connection refused"
      (by simp [wMetrics]) rfl (by simp [wMetrics]) rfl⟩

theorem collectAttempts_append (l1 l2 : List DriverEvent) :
    collectAttempts (l1 ++ l2) = collectAttempts l1 ++ collectAttempts l2 :=
  List.filterMap_append l1 l2 _

theorem collectAttempts_flatMap {α : Type} (l : List α) (f : α → List DriverEvent) :
    collectAttempts (l.flatMap f) = l.flatMap (fun a => collectAttempts (f a)) := by
  induction l with
  | nil => rfl
  | cons a l ih =>
    rw [List.flatMap_cons, List.flatMap_cons, collectAttempts_append, ih]

theorem flatMap_singleton_eq_map {α β : Type} (l : List α) (f : α → β) :
    (l.flatMap fun a => [f a]) = l.map f := by
  induction l with
  | nil => rfl
  | cons a l ih => rw [List.flatMap_cons, ih]; rfl

theorem collectAttempts_processBatch
    (st : List MetricResult → String → Option String)
    (cr : String → TimeRange → Except (List String) (List MetricResult))
    (cfg : Config) (loc : Int) (p : String) (b : Int × Int) :
    collectAttempts (processBatch st cr cfg loc p b)
      = [(p, some ⟨b.1, b.2, cfg.prometheus.rangeStep⟩)] := by
  simp only [processBatch]
  cases h : cr p ⟨b.1, b.2, cfg.prometheus.rangeStep⟩ with
  | error errs => simp [collectAttempts]
  | ok metrics =>
    cases metrics with
    | nil => simp [collectAttempts]
    | cons m ms =>
      cases hst : st (m :: ms) (batchFilename cfg.storage.outputDir loc p b.1 b.2) with
      | none => simp [collectAttempts, hst]
      | some e => simp [collectAttempts, hst]

theorem collectAttempts_processInstantTarget
    (st : List MetricResult → String → Option String)
    (ci : String → Except (List String) (List MetricResult))
    (cfg : Config) (loc : Int) (fileDate : GoTime) (p : String) :
    collectAttempts (processInstantTarget st ci cfg loc fileDate p) = [(p, none)] := by
  simp only [processInstantTarget]
  cases h : ci p with
  | error errs => simp [collectAttempts]
  | ok metrics =>
    cases hst : st metrics (instantFilename cfg.storage.outputDir loc p fileDate) with
    | none => simp [collectAttempts, hst]
    | some e => simp [collectAttempts, hst]

theorem collectAndStore_attempts
    (ci : String → Except (List String) (List MetricResult))
    (cr : String → TimeRange → Except (List String) (List MetricResult))
    (st : List MetricResult → String → Option String)
    (cfg : Config) (now : GoTime) (loc : Int) :
    collectAttempts (collectAndStore ci cr st cfg now loc) = plannedUnits cfg := by
  simp only [collectAndStore, plannedUnits]
  cases h : usesRangeMode cfg with
  | true =>
    simp only [if_pos rfl, if_true]
    rw [collectAttempts_flatMap]
    apply congrArg
    funext p
    rw [collectAttempts_flatMap]
    have hpb : (fun b => collectAttempts (processBatch st cr cfg loc p b))
        = fun b => [((p, some ⟨b.1, b.2, cfg.prometheus.rangeStep⟩) : String × Option TimeRange)] := by
      funext b
      exact collectAttempts_processBatch st cr cfg loc p b
    rw [hpb, flatMap_singleton_eq_map]
  | false =>
    simp only [Bool.false_eq_true, if_false]
    rw [collectAttempts_flatMap]
    have hpi : (fun a => collectAttempts (processInstantTarget st ci cfg loc
          (if (!isZeroTime cfg.startTime) = true then cfg.startTime else now) a))
        = fun a => [((a, none) : String × Option TimeRange)] := by
      funext a
      exact collectAttempts_processInstantTarget st ci cfg loc _ a
    rw [hpi, flatMap_singleton_eq_map]

/-- C6: for every oracle behaviour of the Target Collector and the Sink —
that is, for every pattern of per-unit failures — the driver attempts every
planned (target, batch) unit in range mode and every target in instant
mode; a unit whose collect call fails contributes only its attempt and its
failure log entry (no sink interaction), and, as the attempt equality holds
for all oracles, the remaining batches and targets are processed
regardless. -/
theorem collectAndStore_never_aborts
    (ci : String → Except (List String) (List MetricResult))
    (cr : String → TimeRange → Except (List String) (List MetricResult))
    (st : List MetricResult → String → Option String)
    (cfg : Config) (now : GoTime) (loc : Int) :
    collectAttempts (collectAndStore ci cr st cfg now loc) = plannedUnits cfg ∧
      (∀ p b errs, cr p ⟨b.1, b.2, cfg.prometheus.rangeStep⟩ = .error errs →
        processBatch st cr cfg loc p b =
          [DriverEvent.collectAttempt p (some ⟨b.1, b.2, cfg.prometheus.rangeStep⟩),
           DriverEvent.collectFailed p errs]) ∧
      (∀ p errs fileDate, ci p = .error errs →
        processInstantTarget st ci cfg loc fileDate p =
          [DriverEvent.collectAttempt p none, DriverEvent.collectFailed p errs]) := by
  refine ⟨collectAndStore_attempts ci cr st cfg now loc, ?_, ?_⟩
  · intro p b errs h
    simp only [processBatch, h]
  · intro p errs fileDate h
    simp only [processInstantTarget, h]

/-- Witness for C6: with a collector that always fails and a sink that
always fails, the driver still attempts every planned unit of the
two-target range configuration, and a failing batch contributes exactly
its attempt and failure events. -/
theorem collectAndStore_never_aborts_witness :
    collectAttempts (collectAndStore (fun _ => Except.error ["boom"])
        (fun _ _ => Except.error ["boom"]) (fun _ _ => some "sink failed")
        rangeConfig 0 0) = plannedUnits rangeConfig ∧
      ((fun (_ : String) (_ : TimeRange) =>
          (Except.error ["boom"] : Except (List String) (List MetricResult))) "memento"
          ⟨1743984000000, 1744005600000, rangeConfig.prometheus.rangeStep⟩ = .error ["boom"]) ∧
      processBatch (fun _ _ => some "sink failed") (fun _ _ => Except.error ["boom"])
          rangeConfig 0 "memento" (1743984000000, 1744005600000) =
        [DriverEvent.collectAttempt "memento"
            (some ⟨1743984000000, 1744005600000, rangeConfig.prometheus.rangeStep⟩),
          DriverEvent.collectFailed "memento" ["boom"]] :=
  ⟨(collectAndStore_never_aborts (fun _ => Except.error ["boom"])
      (fun _ _ => Except.error ["boom"]) (fun _ _ => some "sink failed") rangeConfig 0 0).1,
    rfl,
    (collectAndStore_never_aborts (fun _ => Except.error ["boom"])
      (fun _ _ => Except.error ["boom"]) (fun _ _ => some "sink failed") rangeConfig 0 0).2.1
      "memento" (1743984000000, 1744005600000) ["boom"] rfl⟩

/-- C9: a range-mode batch whose Target Collector call returns zero samples
and no error produces exactly a collect attempt and an empty-skipped log
entry — no sink interaction and no failure — and the driver's attempt
schedule (every planned unit) is unchanged, so it proceeds to the next
batch without error. -/
theorem emptyBatch_skips_sink
    (st : List MetricResult → String → Option String)
    (cr : String → TimeRange → Except (List String) (List MetricResult))
    (cfg : Config) (loc : Int) (p : String) (b : Int × Int)
    (h : cr p ⟨b.1, b.2, cfg.prometheus.rangeStep⟩ = .ok []) :
    processBatch st cr cfg loc p b =
        [DriverEvent.collectAttempt p (some ⟨b.1, b.2, cfg.prometheus.rangeStep⟩),
         DriverEvent.emptySkipped p] ∧
      storeEvents (processBatch st cr cfg loc p b) = [] ∧
      failEvents (processBatch st cr cfg loc p b) = [] ∧
      ∀ (ci : String → Except (List String) (List MetricResult)) (now : GoTime),
        collectAttempts (collectAndStore ci cr st cfg now loc) = plannedUnits cfg := by
  have h1 : processBatch st cr cfg loc p b =
      [DriverEvent.collectAttempt p (some ⟨b.1, b.2, cfg.prometheus.rangeStep⟩),
       DriverEvent.emptySkipped p] := by
    simp only [processBatch, h]
    rfl
  exact ⟨h1, by rw [h1]; rfl, by rw [h1]; rfl,
    fun ci now => collectAndStore_attempts ci cr st cfg now loc⟩

/-- Witness for C9: a collector returning zero samples for a concrete batch
leads to the skip events and leaves the attempt schedule whole. -/
theorem emptyBatch_skips_sink_witness :
    ((fun (_ : String) (_ : TimeRange) =>
        (Except.ok [] : Except (List String) (List MetricResult))) "memento"
        ⟨1743984000000, 1744005600000, rangeConfig.prometheus.rangeStep⟩ = Except.ok []) ∧
      processBatch (fun _ _ => some "sink failed") (fun _ _ => Except.ok [])
          rangeConfig 0 "memento" (1743984000000, 1744005600000) =
        [DriverEvent.collectAttempt "memento"
            (some ⟨1743984000000, 1744005600000, rangeConfig.prometheus.rangeStep⟩),
          DriverEvent.emptySkipped "memento"] ∧
      storeEvents (processBatch (fun _ _ => some "sink failed") (fun _ _ => Except.ok [])
          rangeConfig 0 "memento" (1743984000000, 1744005600000)) = [] ∧
      failEvents (processBatch (fun _ _ => some "sink failed") (fun _ _ => Except.ok [])
          rangeConfig 0 "memento" (1743984000000, 1744005600000)) = [] ∧
      collectAttempts (collectAndStore (fun _ => Except.error ["x"]) (fun _ _ => Except.ok [])
          (fun _ _ => some "sink failed") rangeConfig 0 0) = plannedUnits rangeConfig := by
  have h := emptyBatch_skips_sink (fun _ _ => some "sink failed") (fun _ _ => Except.ok [])
    rangeConfig 0 "memento" (1743984000000, 1744005600000) rfl
  exact ⟨rfl, h.1, h.2.1, h.2.2.1, h.2.2.2 (fun _ => Except.error ["x"]) 0⟩
